import Mathlib

/-!
Verification of the DLT Viewer plugin interface contract
(`src/src/plugininterface.h`).

The repository ships the contract itself: five abstract interface classes
(`QDLTPluginInterface`, `QDLTPluginDecoderInterface`,
`QDltPluginViewerInterface`, `QDltPluginControlInterface`,
`QDltPluginCommandInterface`) consisting solely of pure-virtual method
declarations.  The structural facts (which class declares which methods,
and that the capability classes do not inherit the base class) are embedded
directly from the header.  The behavioural obligations of the contract
(callback ordering, the command execution state machine, error reporting,
atomic configuration replacement, decoder idempotence) have no implementation
in the repository, so they are modelled from the specification's words and
verified against that model.
-/

namespace DltPlugin

/-! ## Structural embedding of the header's class declarations -/

/-- A C++ abstract interface declaration as it appears in
`plugininterface.h`: the class name, the list of base classes it inherits,
and the names of its declared (pure virtual) methods. -/
structure CppInterface where
  cname : String
  bases : List String
  methods : List String
deriving DecidableEq, Repr

/-- `class QDLTPluginInterface` (plugininterface.h lines 35-113):
the mandatory identity/base interface.  It inherits nothing and declares
`name`, `description`, `pluginVersion`, `pluginInterfaceVersion`, `error`,
`loadConfig`, `saveConfig`, `infoConfig`. -/
def QDLTPluginInterface : CppInterface :=
  { cname := "QDLTPluginInterface"
    bases := []
    methods := ["name", "description", "pluginVersion",
                "pluginInterfaceVersion", "error",
                "loadConfig", "saveConfig", "infoConfig"] }

/-- `class QDLTPluginDecoderInterface` (lines 124-149): declared with no
base classes; methods `isMsg`, `decodeMsg`. -/
def QDLTPluginDecoderInterface : CppInterface :=
  { cname := "QDLTPluginDecoderInterface"
    bases := []
    methods := ["isMsg", "decodeMsg"] }

/-- `class QDltPluginViewerInterface` (lines 160-266): declared with no
base classes; the viewer lifecycle callbacks. -/
def QDltPluginViewerInterface : CppInterface :=
  { cname := "QDltPluginViewerInterface"
    bases := []
    methods := ["initViewer", "initFileStart", "initMsg", "initMsgDecoded",
                "initFileFinish", "updateFileStart", "updateMsg",
                "updateMsgDecoded", "updateFileFinish",
                "selectedIdxMsg", "selectedIdxMsgDecoded"] }

/-- `class QDltPluginControlInterface` (lines 278-322): declared with no
base classes; methods `initControl`, `initConnections`, `controlMsg`,
`stateChanged`. -/
def QDltPluginControlInterface : CppInterface :=
  { cname := "QDltPluginControlInterface"
    bases := []
    methods := ["initControl", "initConnections", "controlMsg",
                "stateChanged"] }

/-- `class QDltPluginCommandInterface` (lines 339-386): declared with no
base classes; methods `command`, `cancel`, `commandReturnValue`,
`commandProgress`, `commandList`. -/
def QDltPluginCommandInterface : CppInterface :=
  { cname := "QDltPluginCommandInterface"
    bases := []
    methods := ["command", "cancel", "commandReturnValue",
                "commandProgress", "commandList"] }

/-- The four optional capability interfaces of the header. -/
def capabilityInterfaces : List CppInterface :=
  [QDLTPluginDecoderInterface, QDltPluginViewerInterface,
   QDltPluginControlInterface, QDltPluginCommandInterface]

/-! ## Viewer bulk phase (modelled from the spec)

The host's bulk-phase delivery loop is not part of the repository (only the
callback declarations are), so the sequence of callbacks the host issues
when a log with `n` pre-existing messages is opened is modelled from the
spec. -/

/-- One viewer lifecycle callback, identified by kind and, for the
per-message callbacks, the host-assigned message index. -/
inductive ViewerEvent where
  | fileStart
  | msgUndecoded (index : Nat)
  | msgDecoded (index : Nat)
  | fileFinish
deriving DecidableEq, Repr

/-- Modelled from the spec: the per-message callbacks issued for message
`index` during the bulk phase — exactly one `initMsg`, followed by one
`initMsgDecoded` exactly when a decoder plugin accepted the message
(`dec index` is true). -/
def bulkMsgEvents (dec : Nat → Bool) (index : Nat) : List ViewerEvent :=
  ViewerEvent.msgUndecoded index ::
    (if dec index then [ViewerEvent.msgDecoded index] else [])

/-- The per-message portion of the bulk trace for indices `0 .. n-1`. -/
def bulkBody (n : Nat) (dec : Nat → Bool) : List ViewerEvent :=
  (List.range n).flatMap (bulkMsgEvents dec)

/-- Modelled from the spec: the full callback trace the host delivers to a
`ViewerCapability` during the bulk phase of opening a log that already
contains `n` messages: `initFileStart`, then the per-message callbacks in
increasing index order, then `initFileFinish`. -/
def bulkTrace (n : Nat) (dec : Nat → Bool) : List ViewerEvent :=
  ViewerEvent.fileStart :: bulkBody n dec ++ [ViewerEvent.fileFinish]

/-- The message index carried by a per-message undecoded callback. -/
def undecodedIndex : ViewerEvent → Option Nat
  | ViewerEvent.msgUndecoded i => some i
  | _ => none

/-- Whether an event is a per-message callback (decoded or undecoded). -/
def isPerMsg : ViewerEvent → Bool
  | ViewerEvent.msgUndecoded _ => true
  | ViewerEvent.msgDecoded _ => true
  | _ => false

/-! ## Messages and the decoder capability (modelled from the spec)

`QDltMsg` is defined outside this repository; the spec describes a message
as a raw payload, a host-assigned index, and an optional decoded
representation. -/

/-- Modelled from the spec: a log message — host-assigned index, raw
undecoded payload (bytes), optional decoded representation.  Plugins may
mutate only `decoded`. -/
structure Msg where
  index : Nat
  raw : List Nat
  decoded : Option String
deriving DecidableEq, Repr

/-- A concrete sample message used to instantiate theorems. -/
def sampleMsg : Msg := { index := 7, raw := [1, 2, 3], decoded := none }

/-- Modelled from the spec: `QDLTPluginDecoderInterface::isMsg` — a
classification predicate on the message bytes and the plugin configuration
(`accepts`); deterministic and side-effect-free with respect to the
message.  Returns the classification together with the (unchanged)
message, mirroring the C++ by-reference parameter. -/
def isMsgCall (accepts : List Nat → Bool) (m : Msg) (_triggeredByUser : Nat) :
    Bool × Msg :=
  (accepts m.raw, m)

/-- Modelled from the spec: `QDLTPluginDecoderInterface::decodeMsg` —
mutates the decoded representation in place from the raw payload alone
(`decodeFn` is the plugin's decoding function under its current
configuration); returns false, leaving the message untouched, when the
plugin does not accept the payload. -/
def decodeMsgCall (accepts : List Nat → Bool) (decodeFn : List Nat → String)
    (m : Msg) (_triggeredByUser : Nat) : Bool × Msg :=
  if accepts m.raw then
    (true, { m with decoded := some (decodeFn m.raw) })
  else
    (false, m)

/-! ## Command execution state machine (modelled from the spec)

The repository declares `QDltPluginCommandInterface` but contains no
implementation; the execution state machine
`Idle -> Running -> (Completed | Cancelling -> Completed) -> Idle`
with polled progress is modelled from the spec. -/

/-- Modelled from the spec: `CommandExecutionState`. -/
inductive ExecState where
  | idle
  | running
  | cancelling
  | completed
deriving DecidableEq, Repr

/-- Modelled from the spec: the observable state of one plugin instance —
the transient `lastError` message (empty when no error is pending), the
active configuration (one string per configuration element, as reported by
`infoConfig`), and the command execution state with its progress counter
and pending return value. -/
structure InstanceState where
  lastError : String
  activeConfig : List String
  exec : ExecState
  progress : Nat
  retVal : Option String
deriving DecidableEq, Repr

/-- The freshly constructed plugin instance: no pending error, empty
configuration, command machine Idle. -/
def initState : InstanceState :=
  { lastError := "", activeConfig := [], exec := ExecState.idle
    progress := 0, retVal := none }

/-- A concrete instance state with an execution Running at progress 37,
used to instantiate theorems. -/
def sampleRunning : InstanceState :=
  { lastError := "", activeConfig := [], exec := ExecState.running
    progress := 37, retVal := none }

/-- Modelled from the spec: `QDLTPluginInterface::error` — returns the
message of the most recent failing call (empty when no error is pending)
and leaves the instance unchanged. -/
def errorCall (s : InstanceState) : String × InstanceState :=
  (s.lastError, s)

/-- Modelled from the spec: `QDltPluginCommandInterface::command` — a
request is rejected immediately (false, error set) while an execution is
still in flight (Running or Cancelling: exactly one request may be in
flight per instance); otherwise the plugin either accepts it (`accept`),
transitioning to Running with progress 0 and no pending return value, or
fails it for its own reasons (false, error set). -/
def commandCall (accept : Bool) (_cmd : String) (_params : List String)
    (s : InstanceState) : Bool × InstanceState :=
  if s.exec = ExecState.running ∨ s.exec = ExecState.cancelling then
    (false, { s with lastError := "a command is already running" })
  else if accept then
    (true, { s with lastError := "", exec := ExecState.running,
                    progress := 0, retVal := none })
  else
    (false, { s with lastError := "command not supported" })

/-- Modelled from the spec: `QDltPluginCommandInterface::cancel` — requests
cooperative termination of a Running execution (transition to Cancelling);
a no-op in every other state, hence safe at any time and idempotent. -/
def cancelCall (s : InstanceState) : InstanceState :=
  if s.exec = ExecState.running then
    { s with exec := ExecState.cancelling }
  else s

/-- Modelled from the spec: one unit of the plugin's own (background or
synchronous) work on the in-flight command: progress climbs by `d`, capped
at 100; on reaching 100 the execution is Completed and the return value
`v` (possibly a cancelled/partial result) is published. -/
def workStep (d : Nat) (v : String) (s : InstanceState) : InstanceState :=
  if s.exec = ExecState.running ∨ s.exec = ExecState.cancelling then
    let p := min 100 (s.progress + d)
    if 100 ≤ p then
      { s with exec := ExecState.completed, progress := p, retVal := some v }
    else
      { s with progress := p }
  else s

/-- Modelled from the spec: `QDltPluginCommandInterface::commandProgress` —
returns the progress counter, side-effect-free. -/
def commandProgressCall (s : InstanceState) : Nat × InstanceState :=
  (s.progress, s)

/-- Modelled from the spec:
`QDltPluginCommandInterface::commandReturnValue` — once the execution is
Completed it yields the published return value and resets the execution
state to Idle (the value is consumed: valid exactly once); in any other
state it yields nothing and changes nothing. -/
def commandReturnValueCall (s : InstanceState) : Option String × InstanceState :=
  if s.exec = ExecState.completed then
    (s.retVal, { s with exec := ExecState.idle, progress := 0, retVal := none })
  else (none, s)

/-- Modelled from the spec: `QDLTPluginInterface::loadConfig` — `fs` maps a
path to the configuration elements parsed from it (`none` when the path is
invalid, unreadable or malformed).  On success the whole new configuration
replaces the active one atomically; on failure the previous configuration
is retained and the error is recorded. -/
def loadConfigCall (fs : String → Option (List String)) (path : String)
    (s : InstanceState) : Bool × InstanceState :=
  match fs path with
  | some cfg => (true, { s with lastError := "", activeConfig := cfg })
  | none =>
      (false, { s with lastError := "cannot load configuration" })

/-- Modelled from the spec: `QDLTPluginInterface::saveConfig` — `writable`
tells whether the path can be written; the active configuration is never
altered by saving. -/
def saveConfigCall (writable : String → Bool) (path : String)
    (s : InstanceState) : Bool × InstanceState :=
  if writable path then (true, { s with lastError := "" })
  else (false, { s with lastError := "cannot save configuration" })

/-- Modelled from the spec: `QDLTPluginInterface::infoConfig` — reports the
configuration currently in effect, one string per element. -/
def infoConfigCall (s : InstanceState) : List String × InstanceState :=
  (s.activeConfig, s)

/-- Modelled from the spec: a control-capability call
(`initControl` / `initConnections` / `controlMsg` / `stateChanged`): the
plugin either handles the event (`handled`, true) or cannot interpret it
and reports the failure through the shared error channel (false, error
set); in either case the event is recoverable and touches no other
instance state. -/
def controlEventCall (handled : Bool) (s : InstanceState) :
    Bool × InstanceState :=
  if handled then (true, { s with lastError := "" })
  else (false, { s with lastError := "cannot handle control event" })

/-! ## The boolean-returning operations of one instance, as one step type

Used to state the shared-error-channel invariant (every boolean-returning
operation of any capability that returns false leaves a non-empty
`lastError`) and the reachable-state invariants of the command machine. -/

/-- One call into a plugin instance.  The data carried by each constructor
is the host's argument together with the plugin-side behaviour the spec
leaves to the plugin (acceptance decisions, decoding functions, work
increments). -/
inductive PluginOp where
  | opLoadConfig (fs : String → Option (List String)) (path : String)
  | opSaveConfig (writable : String → Bool) (path : String)
  | opIsMsg (accepts : List Nat → Bool) (m : Msg) (t : Nat)
  | opDecodeMsg (accepts : List Nat → Bool) (decodeFn : List Nat → String)
      (m : Msg) (t : Nat)
  | opControl (handled : Bool)
  | opCommand (accept : Bool) (cmd : String) (params : List String)
  | opCancel
  | opWork (d : Nat) (v : String)
  | opReadProgress
  | opReadReturnValue
  | opReadError

/-- Whether an operation returns a boolean to the host. -/
def returnsBool : PluginOp → Bool
  | PluginOp.opLoadConfig _ _ => true
  | PluginOp.opSaveConfig _ _ => true
  | PluginOp.opIsMsg _ _ _ => true
  | PluginOp.opDecodeMsg _ _ _ _ => true
  | PluginOp.opControl _ => true
  | PluginOp.opCommand _ _ _ => true
  | _ => false

/-- Run one call against the instance: the boolean result (`none` for the
void / non-boolean operations) and the successor state. -/
def runOp (op : PluginOp) (s : InstanceState) : Option Bool × InstanceState :=
  match op with
  | PluginOp.opLoadConfig fs path =>
      let r := loadConfigCall fs path s
      (some r.1, r.2)
  | PluginOp.opSaveConfig writable path =>
      let r := saveConfigCall writable path s
      (some r.1, r.2)
  | PluginOp.opIsMsg accepts m t =>
      let r := isMsgCall accepts m t
      (some r.1, if r.1 then { s with lastError := "" }
                 else { s with lastError := "message not handled" })
  | PluginOp.opDecodeMsg accepts decodeFn m t =>
      let r := decodeMsgCall accepts decodeFn m t
      (some r.1, if r.1 then { s with lastError := "" }
                 else { s with lastError := "decoding failed" })
  | PluginOp.opControl handled =>
      let r := controlEventCall handled s
      (some r.1, r.2)
  | PluginOp.opCommand accept cmd params =>
      let r := commandCall accept cmd params s
      (some r.1, r.2)
  | PluginOp.opCancel => (none, cancelCall s)
  | PluginOp.opWork d v => (none, workStep d v s)
  | PluginOp.opReadProgress => (none, (commandProgressCall s).2)
  | PluginOp.opReadReturnValue => (none, (commandReturnValueCall s).2)
  | PluginOp.opReadError => (none, (errorCall s).2)

/-- The successor state of one call. -/
def stepOp (s : InstanceState) (op : PluginOp) : InstanceState :=
  (runOp op s).2

/-- The state of the instance after a sequence of calls, starting from the
freshly constructed instance. -/
def runOps (ops : List PluginOp) : InstanceState :=
  ops.foldl stepOp initState

/-- Whether an operation resets the command execution (reading the return
value, or starting a new command): these are the explicit exceptions to
progress monotonicity and to the monotone state order. -/
def resetsExecution : PluginOp → Bool
  | PluginOp.opReadReturnValue => true
  | PluginOp.opCommand _ _ _ => true
  | _ => false

/-- The transitions the command state machine may take in one call:
Idle stays or starts Running; Running stays, turns Cancelling or
Completed; Cancelling stays or turns Completed; Completed stays, resets to
Idle (return value read) or starts a new Running execution. -/
def allowedEdge : ExecState → ExecState → Bool
  | ExecState.idle, ExecState.idle => true
  | ExecState.idle, ExecState.running => true
  | ExecState.running, ExecState.running => true
  | ExecState.running, ExecState.cancelling => true
  | ExecState.running, ExecState.completed => true
  | ExecState.cancelling, ExecState.cancelling => true
  | ExecState.cancelling, ExecState.completed => true
  | ExecState.completed, ExecState.completed => true
  | ExecState.completed, ExecState.idle => true
  | ExecState.completed, ExecState.running => true
  | _, _ => false

/-- The reachable-state invariant of the command machine: progress stays
in `[0, 100]`, reaching 100 is the same as being Completed, and a
Completed execution has a published return value. -/
def ExecInv (s : InstanceState) : Prop :=
  s.progress ≤ 100 ∧
  (100 ≤ s.progress ↔ s.exec = ExecState.completed) ∧
  (s.exec = ExecState.completed → s.retVal.isSome = true)

instance (s : InstanceState) : Decidable (ExecInv s) := by
  unfold ExecInv; infer_instance

/-! ## Lemmas about the bulk-phase trace -/

theorem bulkBody_succ (n : Nat) (dec : Nat → Bool) :
    bulkBody (n + 1) dec = bulkBody n dec ++ bulkMsgEvents dec n := by
  simp [bulkBody, List.range_succ]

theorem count_msgUndecoded_bulkBody (n : Nat) (dec : Nat → Bool) (i : Nat) :
    (bulkBody n dec).count (ViewerEvent.msgUndecoded i)
      = if i < n then 1 else 0 := by
  induction n with
  | zero => simp [bulkBody]
  | succ n ih =>
      rw [bulkBody_succ, List.count_append, ih]
      by_cases hin : i = n
      · subst hin
        rcases hdn : dec i <;>
          simp [bulkMsgEvents, hdn, List.count_cons, List.count_nil]
      · have hiff : i < n ↔ i < n + 1 := by omega
        rcases hdn : dec n <;>
          simp [bulkMsgEvents, hdn, List.count_cons, List.count_nil,
            Ne.symm hin, hiff]

theorem count_msgDecoded_bulkBody (n : Nat) (dec : Nat → Bool) (i : Nat) :
    (bulkBody n dec).count (ViewerEvent.msgDecoded i)
      = if i < n ∧ dec i then 1 else 0 := by
  induction n with
  | zero => simp [bulkBody]
  | succ n ih =>
      rw [bulkBody_succ, List.count_append, ih]
      by_cases hin : i = n
      · subst hin
        rcases hdn : dec i <;>
          simp [bulkMsgEvents, hdn, List.count_cons, List.count_nil]
      · have hiff : i < n ↔ i < n + 1 := by omega
        rcases hdn : dec n <;>
          simp [bulkMsgEvents, hdn, List.count_cons, List.count_nil,
            Ne.symm hin, hiff]

theorem count_fileStart_bulkBody (n : Nat) (dec : Nat → Bool) :
    (bulkBody n dec).count ViewerEvent.fileStart = 0 := by
  induction n with
  | zero => simp [bulkBody]
  | succ n ih =>
      rw [bulkBody_succ, List.count_append, ih]
      rcases hdn : dec n <;>
        simp [bulkMsgEvents, hdn, List.count_cons, List.count_nil]

theorem count_fileFinish_bulkBody (n : Nat) (dec : Nat → Bool) :
    (bulkBody n dec).count ViewerEvent.fileFinish = 0 := by
  induction n with
  | zero => simp [bulkBody]
  | succ n ih =>
      rw [bulkBody_succ, List.count_append, ih]
      rcases hdn : dec n <;>
        simp [bulkMsgEvents, hdn, List.count_cons, List.count_nil]

theorem filterMap_undecodedIndex_bulkBody (n : Nat) (dec : Nat → Bool) :
    (bulkBody n dec).filterMap undecodedIndex = List.range n := by
  induction n with
  | zero => simp [bulkBody]
  | succ n ih =>
      rw [bulkBody_succ, List.filterMap_append, ih, List.range_succ]
      rcases hdn : dec n <;>
        simp [bulkMsgEvents, hdn, undecodedIndex]

/-! ## Lemmas about the command execution machine -/

theorem execInv_initState : ExecInv initState := by decide

theorem execInv_stepOp (op : PluginOp) (s : InstanceState) (h : ExecInv s) :
    ExecInv (stepOp s op) := by
  obtain ⟨h1, h2, h3⟩ := h
  cases op with
  | opLoadConfig fs path =>
      simp only [stepOp, runOp, loadConfigCall]
      cases fs path <;> exact ⟨h1, h2, h3⟩
  | opSaveConfig w path =>
      simp only [stepOp, runOp, saveConfigCall]
      split <;> exact ⟨h1, h2, h3⟩
  | opIsMsg accepts m t =>
      simp only [stepOp, runOp]
      split <;> exact ⟨h1, h2, h3⟩
  | opDecodeMsg accepts decodeFn m t =>
      simp only [stepOp, runOp]
      split <;> exact ⟨h1, h2, h3⟩
  | opControl handled =>
      simp only [stepOp, runOp, controlEventCall]
      split <;> exact ⟨h1, h2, h3⟩
  | opCommand accept cmd params =>
      simp only [stepOp, runOp, commandCall]
      split
      · exact ⟨h1, h2, h3⟩
      · split
        · exact ⟨Nat.zero_le _, by simp, by simp⟩
        · exact ⟨h1, h2, h3⟩
  | opCancel =>
      simp only [stepOp, runOp, cancelCall]
      split
      · rename_i hr
        have hnp : ¬ (100 ≤ s.progress) := by
          rw [h2, hr]; simp
        exact ⟨h1, iff_of_false hnp (by simp), by simp⟩
      · exact ⟨h1, h2, h3⟩
  | opWork d v =>
      simp only [stepOp, runOp, workStep]
      split
      · rename_i hex
        split
        · rename_i hp
          exact ⟨Nat.min_le_left _ _, iff_of_true hp rfl, fun _ => rfl⟩
        · rename_i hp
          exact ⟨Nat.min_le_left _ _,
            iff_of_false hp (by rcases hex with h | h <;> simp [h]), h3⟩
      · exact ⟨h1, h2, h3⟩
  | opReadProgress => exact ⟨h1, h2, h3⟩
  | opReadReturnValue =>
      simp only [stepOp, runOp, commandReturnValueCall]
      split
      · exact ⟨Nat.zero_le _, by simp, by simp⟩
      · exact ⟨h1, h2, h3⟩
  | opReadError => exact ⟨h1, h2, h3⟩

theorem execInv_foldl (ops : List PluginOp) (s : InstanceState)
    (h : ExecInv s) : ExecInv (ops.foldl stepOp s) := by
  induction ops generalizing s with
  | nil => exact h
  | cons op ops ih => exact ih (stepOp s op) (execInv_stepOp op s h)

theorem execInv_runOps (ops : List PluginOp) : ExecInv (runOps ops) :=
  execInv_foldl ops initState execInv_initState

theorem progress_mono_stepOp (op : PluginOp) (s : InstanceState)
    (hp : s.progress ≤ 100) (hr : resetsExecution op = false) :
    s.progress ≤ (stepOp s op).progress := by
  cases op with
  | opLoadConfig fs path =>
      simp only [stepOp, runOp, loadConfigCall]
      cases fs path <;> exact Nat.le_refl _
  | opSaveConfig w path =>
      simp only [stepOp, runOp, saveConfigCall]
      split <;> exact Nat.le_refl _
  | opIsMsg accepts m t =>
      simp only [stepOp, runOp]
      split <;> exact Nat.le_refl _
  | opDecodeMsg accepts decodeFn m t =>
      simp only [stepOp, runOp]
      split <;> exact Nat.le_refl _
  | opControl handled =>
      simp only [stepOp, runOp, controlEventCall]
      split <;> exact Nat.le_refl _
  | opCommand accept cmd params => simp [resetsExecution] at hr
  | opCancel =>
      simp only [stepOp, runOp, cancelCall]
      split <;> exact Nat.le_refl _
  | opWork d v =>
      simp only [stepOp, runOp, workStep]
      split
      · split <;>
          exact Nat.le_min.mpr ⟨hp, Nat.le_add_right _ _⟩
      · exact Nat.le_refl _
  | opReadProgress => exact Nat.le_refl _
  | opReadReturnValue => simp [resetsExecution] at hr
  | opReadError => exact Nat.le_refl _

theorem allowedEdge_refl (e : ExecState) : allowedEdge e e = true := by
  cases e <;> rfl

theorem allowedEdge_stepOp (op : PluginOp) (s : InstanceState) :
    allowedEdge s.exec (stepOp s op).exec = true := by
  cases op with
  | opLoadConfig fs path =>
      simp only [stepOp, runOp, loadConfigCall]
      cases fs path <;> exact allowedEdge_refl _
  | opSaveConfig w path =>
      simp only [stepOp, runOp, saveConfigCall]
      split <;> exact allowedEdge_refl _
  | opIsMsg accepts m t =>
      simp only [stepOp, runOp]
      split <;> exact allowedEdge_refl _
  | opDecodeMsg accepts decodeFn m t =>
      simp only [stepOp, runOp]
      split <;> exact allowedEdge_refl _
  | opControl handled =>
      simp only [stepOp, runOp, controlEventCall]
      split <;> exact allowedEdge_refl _
  | opCommand accept cmd params =>
      simp only [stepOp, runOp, commandCall]
      split
      · exact allowedEdge_refl _
      · rename_i hrc
        split
        · cases he : s.exec
          · rfl
          · exact absurd (Or.inl he) hrc
          · exact absurd (Or.inr he) hrc
          · rfl
        · exact allowedEdge_refl _
  | opCancel =>
      simp only [stepOp, runOp, cancelCall]
      split
      · rename_i hr
        rw [hr]; rfl
      · exact allowedEdge_refl _
  | opWork d v =>
      simp only [stepOp, runOp, workStep]
      split
      · rename_i hex
        split
        · rcases hex with h | h <;> rw [h] <;> rfl
        · exact allowedEdge_refl _
      · exact allowedEdge_refl _
  | opReadProgress => exact allowedEdge_refl _
  | opReadReturnValue =>
      simp only [stepOp, runOp, commandReturnValueCall]
      split
      · rename_i hc
        rw [hc]; rfl
      · exact allowedEdge_refl _
  | opReadError => exact allowedEdge_refl _

/-! ## Claim theorems -/

/-- C1: during the bulk phase of a log with `n` pre-existing messages the
viewer callbacks are delivered in order — `initFileStart` first and exactly
once, then for each index below `n` exactly one `initMsg` and exactly one
`initMsgDecoded` when a decoder accepted that message (at most one in any
case, and none for indices not in the log), with the undecoded indices
forming exactly the strictly increasing contiguous sequence `0, …, n-1`,
and `initFileFinish` exactly once, as the last callback, after every
per-message callback. -/
theorem bulk_phase_callback_contract (n : Nat) (dec : Nat → Bool) :
    (bulkTrace n dec).head? = some ViewerEvent.fileStart ∧
    (bulkTrace n dec).count ViewerEvent.fileStart = 1 ∧
    (bulkTrace n dec).count ViewerEvent.fileFinish = 1 ∧
    (bulkTrace n dec).getLast? = some ViewerEvent.fileFinish ∧
    (∀ i, (bulkTrace n dec).count (ViewerEvent.msgUndecoded i)
        = if i < n then 1 else 0) ∧
    (∀ i, (bulkTrace n dec).count (ViewerEvent.msgDecoded i)
        = if i < n ∧ dec i then 1 else 0) ∧
    (bulkTrace n dec).filterMap undecodedIndex = List.range n := by
  refine ⟨rfl, ?_, ?_, ?_, ?_, ?_, ?_⟩
  · simp [bulkTrace, List.count_cons, List.count_append,
      count_fileStart_bulkBody, List.count_nil]
  · simp [bulkTrace, List.count_cons, List.count_append,
      count_fileFinish_bulkBody, List.count_nil]
  · rw [bulkTrace, List.getLast?_concat]
  · intro i
    simp [bulkTrace, List.count_cons, List.count_append,
      count_msgUndecoded_bulkBody, List.count_nil]
  · intro i
    simp [bulkTrace, List.count_cons, List.count_append,
      count_msgDecoded_bulkBody, List.count_nil]
  · simp [bulkTrace, List.filterMap_append, undecodedIndex,
      filterMap_undecodedIndex_bulkBody]

/-- C2: at most one command request is in flight per plugin instance —
`command` called while an execution is Running returns false, sets a
non-empty error, and leaves the in-flight execution's progress, return
value (and state) unchanged; any accepted `command` call (one returning
true) transitions the execution state to Running. -/
theorem command_single_in_flight (accept : Bool) (cmd : String)
    (params : List String) (s : InstanceState) :
    (s.exec = ExecState.running →
      (commandCall accept cmd params s).1 = false ∧
      (commandCall accept cmd params s).2.lastError ≠ "" ∧
      (commandCall accept cmd params s).2.progress = s.progress ∧
      (commandCall accept cmd params s).2.retVal = s.retVal ∧
      (commandCall accept cmd params s).2.exec = s.exec) ∧
    ((commandCall accept cmd params s).1 = true →
      (commandCall accept cmd params s).2.exec = ExecState.running) := by
  simp only [commandCall]
  split
  · exact ⟨fun _ => ⟨rfl, by simp, rfl, rfl, rfl⟩, fun hf => by simp at hf⟩
  · rename_i hrc
    split
    · exact ⟨fun h => absurd (Or.inl h) hrc, fun _ => rfl⟩
    · exact ⟨fun h => absurd (Or.inl h) hrc, fun hf => by simp at hf⟩

/-- Witness for C2 at a concrete Running state and a concrete Idle
state. -/
theorem command_single_in_flight_witness :
    ((commandCall true "export" ["x"] sampleRunning).1 = false ∧
      (commandCall true "export" ["x"] sampleRunning).2.progress = 37) ∧
    (commandCall true "export" ["x"] initState).2.exec
        = ExecState.running := by
  refine ⟨?_, ?_⟩
  · have h := command_single_in_flight true "export" ["x"] sampleRunning
    exact ⟨(h.1 rfl).1, (h.1 rfl).2.2.1⟩
  · exact (command_single_in_flight true "export" ["x"] initState).2 rfl

/-- C3: `cancel` is safe at any time and idempotent; called on a Running
execution it transitions to Cancelling, and from Running or Cancelling the
plugin's remaining (cooperative) work step still reaches Completed with
progress ≥ 100 and a published return value — the machine is never stuck
in Cancelling. -/
theorem cancel_eventually_completes (s : InstanceState) (v : String) :
    cancelCall (cancelCall s) = cancelCall s ∧
    (s.exec = ExecState.running →
      (cancelCall s).exec = ExecState.cancelling) ∧
    (s.exec = ExecState.running ∨ s.exec = ExecState.cancelling →
      (workStep 100 v (cancelCall s)).exec = ExecState.completed ∧
      100 ≤ (workStep 100 v (cancelCall s)).progress ∧
      ((workStep 100 v (cancelCall s)).retVal).isSome = true) := by
  have hmin : min 100 (s.progress + 100) = 100 :=
    Nat.min_eq_left (Nat.le_add_left _ _)
  refine ⟨?_, ?_, ?_⟩
  · by_cases h : s.exec = ExecState.running <;> simp [cancelCall, h]
  · intro h; simp [cancelCall, h]
  · rintro (h | h) <;> simp [cancelCall, workStep, h, hmin]

/-- Witness for C3 at a concrete Running state. -/
theorem cancel_eventually_completes_witness :
    (workStep 100 "cancelled" (cancelCall sampleRunning)).exec
      = ExecState.completed :=
  ((cancel_eventually_completes sampleRunning "cancelled").2.2
    (Or.inl rfl)).1

/-- C4: in every reachable instance state the polled progress lies in
`[0, 100]` (it is a natural number, so only the upper bound is
substantive), progress ≥ 100 holds exactly when the execution is Completed
— in which case a return value is published and safe to read — and any
call that does not reset the execution (reading the return value or
starting a new command) leaves the polled progress non-decreasing. -/
theorem commandProgress_range_monotone (ops : List PluginOp)
    (op : PluginOp) :
    (commandProgressCall (runOps ops)).1 ≤ 100 ∧
    (100 ≤ (commandProgressCall (runOps ops)).1 ↔
      (runOps ops).exec = ExecState.completed) ∧
    ((runOps ops).exec = ExecState.completed →
      ((runOps ops).retVal).isSome = true) ∧
    (resetsExecution op = false →
      (commandProgressCall (runOps ops)).1 ≤
        (commandProgressCall (stepOp (runOps ops) op)).1) := by
  obtain ⟨h1, h2, h3⟩ := execInv_runOps ops
  exact ⟨h1, h2, h3, fun hr => progress_mono_stepOp op (runOps ops) h1 hr⟩

/-- Witness for C4 on a concrete run: a command accepted and worked to 40,
then a further non-reset work step. -/
theorem commandProgress_range_monotone_witness :
    resetsExecution (PluginOp.opWork 25 "partial") = false ∧
    (commandProgressCall
        (runOps [PluginOp.opCommand true "export" ["a"],
                 PluginOp.opWork 40 "r"])).1 ≤
      (commandProgressCall
        (stepOp (runOps [PluginOp.opCommand true "export" ["a"],
                         PluginOp.opWork 40 "r"])
          (PluginOp.opWork 25 "partial"))).1 :=
  ⟨rfl,
    (commandProgress_range_monotone
      [PluginOp.opCommand true "export" ["a"], PluginOp.opWork 40 "r"]
      (PluginOp.opWork 25 "partial")).2.2.2 rfl⟩

/-- C5: in a reachable Completed state the return value read yields the
published value (which exists), resets the execution state to Idle, and an
immediate second read yields nothing — the value is valid exactly once;
and every call moves the execution state along an allowed edge of
`Idle -> Running -> (Completed | Cancelling -> Completed)`, the only
departures from that monotone order being the explicit resets out of
Completed (return value read, new command). -/
theorem returnValue_once_and_monotone_transitions (ops : List PluginOp)
    (op : PluginOp) :
    ((runOps ops).exec = ExecState.completed →
      (commandReturnValueCall (runOps ops)).1 = (runOps ops).retVal ∧
      ((runOps ops).retVal).isSome = true ∧
      (commandReturnValueCall (runOps ops)).2.exec = ExecState.idle ∧
      (commandReturnValueCall
        (commandReturnValueCall (runOps ops)).2).1 = none) ∧
    allowedEdge (runOps ops).exec (stepOp (runOps ops) op).exec = true := by
  refine ⟨fun hc => ?_, allowedEdge_stepOp op (runOps ops)⟩
  obtain ⟨h1, h2, h3⟩ := execInv_runOps ops
  refine ⟨?_, h3 hc, ?_, ?_⟩ <;>
    simp [commandReturnValueCall, hc]

/-- Witness for C5 on a concrete run reaching Completed. -/
theorem returnValue_once_and_monotone_transitions_witness :
    (commandReturnValueCall
        (runOps [PluginOp.opCommand true "export" [],
                 PluginOp.opWork 100 "done"])).2.exec = ExecState.idle :=
  ((returnValue_once_and_monotone_transitions
      [PluginOp.opCommand true "export" [], PluginOp.opWork 100 "done"]
      PluginOp.opReadProgress).1 rfl).2.2.1

/-- C6: every boolean-returning operation of any capability that returns
false leaves a non-empty `lastError`, which is exactly what `error`
then reports; `error` itself is side-effect-free, reports the stored
message, and reports the empty string when no error is pending. -/
theorem error_channel_contract (op : PluginOp) (s : InstanceState) :
    ((runOp op s).1 = some false →
      (runOp op s).2.lastError ≠ "" ∧
      (errorCall (runOp op s).2).1 = (runOp op s).2.lastError) ∧
    (errorCall s).1 = s.lastError ∧
    (errorCall s).2 = s ∧
    (s.lastError = "" → (errorCall s).1 = "") := by
  refine ⟨?_, rfl, rfl, fun h => h⟩
  cases op with
  | opLoadConfig fs path =>
      simp only [runOp, loadConfigCall]
      cases fs path with
      | none =>
          exact fun _ =>
            ⟨(by decide : ("cannot load configuration" : String) ≠ ""), rfl⟩
      | some cfg => intro h; simp at h
  | opSaveConfig w path =>
      simp only [runOp, saveConfigCall]
      split
      · intro h; simp at h
      · exact fun _ =>
          ⟨(by decide : ("cannot save configuration" : String) ≠ ""), rfl⟩
  | opIsMsg accepts m t =>
      simp only [runOp]
      split
      · rename_i hb
        intro h
        rw [hb] at h
        simp at h
      · exact fun _ =>
          ⟨(by decide : ("message not handled" : String) ≠ ""), rfl⟩
  | opDecodeMsg accepts decodeFn m t =>
      simp only [runOp]
      split
      · rename_i hb
        intro h
        rw [hb] at h
        simp at h
      · exact fun _ =>
          ⟨(by decide : ("decoding failed" : String) ≠ ""), rfl⟩
  | opControl handled =>
      simp only [runOp, controlEventCall]
      split
      · intro h; simp at h
      · exact fun _ =>
          ⟨(by decide : ("cannot handle control event" : String) ≠ ""), rfl⟩
  | opCommand accept cmd params =>
      simp only [runOp, commandCall]
      split
      · exact fun _ =>
          ⟨(by decide : ("a command is already running" : String) ≠ ""), rfl⟩
      · split
        · intro h; simp at h
        · exact fun _ =>
            ⟨(by decide : ("command not supported" : String) ≠ ""), rfl⟩
  | opCancel => intro h; simp [runOp] at h
  | opWork d v => intro h; simp [runOp] at h
  | opReadProgress => intro h; simp [runOp] at h
  | opReadReturnValue => intro h; simp [runOp] at h
  | opReadError => intro h; simp [runOp] at h

/-- Witness for C6 at a concrete failing control event and the empty
error of the fresh instance. -/
theorem error_channel_contract_witness :
    (runOp (PluginOp.opControl false) initState).2.lastError ≠ "" ∧
    (errorCall initState).1 = "" :=
  ⟨((error_channel_contract (PluginOp.opControl false) initState).1 rfl).1,
    (error_channel_contract (PluginOp.opControl false) initState).2.2.2 rfl⟩

/-- C7: `loadConfig` replaces the active configuration atomically — on a
path the environment cannot parse it returns false, records an error and
leaves `infoConfig` reporting the previously loaded configuration
untouched; on success the whole new configuration takes effect and
`infoConfig` reports exactly it. -/
theorem loadConfig_atomic (fs : String → Option (List String))
    (path : String) (s : InstanceState) :
    (fs path = none →
      (loadConfigCall fs path s).1 = false ∧
      (infoConfigCall (loadConfigCall fs path s).2).1
          = (infoConfigCall s).1 ∧
      (loadConfigCall fs path s).2.lastError ≠ "") ∧
    (∀ cfg, fs path = some cfg →
      (loadConfigCall fs path s).1 = true ∧
      (infoConfigCall (loadConfigCall fs path s).2).1 = cfg) := by
  constructor
  · intro h
    simp [loadConfigCall, h, infoConfigCall]
  · intro cfg h
    simp [loadConfigCall, h, infoConfigCall]

/-- Witness for C7: a successful load of `good.xml` followed by a failed
load of `bad.xml` leaves `infoConfig` reporting the `good.xml`
configuration. -/
theorem loadConfig_atomic_witness :
    (infoConfigCall
      (loadConfigCall
        (fun p => if p = "good.xml" then some ["elem1", "elem2"] else none)
        "bad.xml"
        (loadConfigCall
          (fun p => if p = "good.xml" then some ["elem1", "elem2"] else none)
          "good.xml" initState).2).2).1 = ["elem1", "elem2"] := by
  have hfail := (loadConfig_atomic
    (fun p => if p = "good.xml" then some ["elem1", "elem2"] else none)
    "bad.xml"
    (loadConfigCall
      (fun p => if p = "good.xml" then some ["elem1", "elem2"] else none)
      "good.xml" initState).2).1 rfl
  have hok := (loadConfig_atomic
    (fun p => if p = "good.xml" then some ["elem1", "elem2"] else none)
    "good.xml" initState).2 ["elem1", "elem2"] rfl
  exact hfail.2.1.trans hok.2

/-- C8: `decodeMsg` is idempotent — with unchanged plugin configuration
(`accepts`, `decodeFn`), decoding the message produced by a first decode
returns exactly the same result and message as the first decode. -/
theorem decodeMsg_idempotent (accepts : List Nat → Bool)
    (decodeFn : List Nat → String) (m : Msg) (t : Nat) :
    decodeMsgCall accepts decodeFn
        (decodeMsgCall accepts decodeFn m t).2 t
      = decodeMsgCall accepts decodeFn m t := by
  by_cases h : accepts m.raw <;> simp [decodeMsgCall, h]

/-- C9: the decoder operations never alter a message's raw payload or its
host-assigned index — only the decoded representation — and each of
`isMsg` and `decodeMsg` leaves the message entirely unchanged whenever it
returns false. -/
theorem msg_raw_index_preserved (accepts : List Nat → Bool)
    (decodeFn : List Nat → String) (m : Msg) (t : Nat) :
    (isMsgCall accepts m t).2.raw = m.raw ∧
    (isMsgCall accepts m t).2.index = m.index ∧
    (decodeMsgCall accepts decodeFn m t).2.raw = m.raw ∧
    (decodeMsgCall accepts decodeFn m t).2.index = m.index ∧
    ((isMsgCall accepts m t).1 = false → (isMsgCall accepts m t).2 = m) ∧
    ((decodeMsgCall accepts decodeFn m t).1 = false →
      (decodeMsgCall accepts decodeFn m t).2 = m) := by
  refine ⟨rfl, rfl, ?_, ?_, fun _ => rfl, ?_⟩ <;>
    by_cases h : accepts m.raw <;>
    simp [decodeMsgCall, h]

/-- Witness for C9 at a concrete rejected message. -/
theorem msg_raw_index_preserved_witness :
    (isMsgCall (fun _ => false) sampleMsg 0).2 = sampleMsg ∧
    (decodeMsgCall (fun _ => false) (fun _ => "d") sampleMsg 0).2
      = sampleMsg :=
  ⟨(msg_raw_index_preserved (fun _ => false) (fun _ => "d")
      sampleMsg 0).2.2.2.2.1 rfl,
    (msg_raw_index_preserved (fun _ => false) (fun _ => "d")
      sampleMsg 0).2.2.2.2.2 rfl⟩

/-- C10: as declared in the header, the four capability interfaces
(decoder, viewer, control, command) inherit no base class — in particular
not `QDLTPluginInterface` — and none of them declares an `error` method;
only the base identity interface declares `error`.  The shared error
channel is therefore a composition convention, not a guarantee of the
capability interface types. -/
theorem capability_interfaces_standalone :
    QDLTPluginDecoderInterface.bases = [] ∧
    "error" ∉ QDLTPluginDecoderInterface.methods ∧
    QDltPluginViewerInterface.bases = [] ∧
    "error" ∉ QDltPluginViewerInterface.methods ∧
    QDltPluginControlInterface.bases = [] ∧
    "error" ∉ QDltPluginControlInterface.methods ∧
    QDltPluginCommandInterface.bases = [] ∧
    "error" ∉ QDltPluginCommandInterface.methods ∧
    "error" ∈ QDLTPluginInterface.methods := by
  decide

end DltPlugin
